import Mathlib

/-!
Shallow embedding of the rust-raytrace renderer: the vector/point algebra
(src/vector.rs, src/point.rs), the scene data model (src/scene.rs), the
intersection engine (src/render.rs) and the shading loop (src/main.rs).
Machine floats (f32/f64) are modelled as real numbers; the special values
needed by the panic-checking code (infinity from f64::INFINITY, NaN from
degenerate arithmetic) are modelled explicitly where the code branches on
them: EReal for Light::distance, and the FVal type for the distances fed
to Intersection::new inside Scene::trace.  Panicking functions return
Option, with none standing for the panic.
-/

namespace Raytrace

/-- Vector3 from src/vector.rs: x, y, z as 64-bit floats, modelled as reals. -/
structure Vector3 where
  x : ℝ
  y : ℝ
  z : ℝ

/-- Point from src/point.rs. -/
structure Point where
  x : ℝ
  y : ℝ
  z : ℝ

/-- Vector3::norm: the squared length x*x + y*y + z*z. -/
def Vector3.norm (v : Vector3) : ℝ := v.x * v.x + v.y * v.y + v.z * v.z

/-- Vector3::length: sqrt of norm. -/
noncomputable def Vector3.length (v : Vector3) : ℝ := Real.sqrt v.norm

/-- Vector3::dot_prod. -/
def Vector3.dot_prod (v w : Vector3) : ℝ := v.x * w.x + v.y * w.y + v.z * w.z

/-- Vector3::normalize: divide each component by the length (division by a
zero length is the undefined case; in this model 1/0 = 0). -/
noncomputable def Vector3.normalize (v : Vector3) : Vector3 :=
  ⟨v.x / v.length, v.y / v.length, v.z / v.length⟩

instance : Add Vector3 := ⟨fun a b => ⟨a.x + b.x, a.y + b.y, a.z + b.z⟩⟩

instance : Sub Vector3 := ⟨fun a b => ⟨a.x - b.x, a.y - b.y, a.z - b.z⟩⟩

instance : Neg Vector3 := ⟨fun a => ⟨-a.x, -a.y, -a.z⟩⟩

/-- impl Mul of f64 for Vector3: scalar multiply. -/
instance : HMul Vector3 ℝ Vector3 := ⟨fun a t => ⟨a.x * t, a.y * t, a.z * t⟩⟩

/-- Point::zero. -/
def Point.zero : Point := ⟨0, 0, 0⟩

/-- impl Add of Vector3 for Point: Point + Vector3 is a Point. -/
instance : HAdd Point Vector3 Point := ⟨fun p v => ⟨p.x + v.x, p.y + v.y, p.z + v.z⟩⟩

/-- impl Sub of Point for Point: Point - Point is a Vector3. -/
instance : HSub Point Point Vector3 := ⟨fun p q => ⟨p.x - q.x, p.y - q.y, p.z - q.z⟩⟩

/-- Colour from src/scene.rs: three 32-bit float channels, modelled as reals. -/
structure Colour where
  red : ℝ
  green : ℝ
  blue : ℝ

/-- Colour::clamp: cap each channel at 1.0 (f32::min with 1.0). -/
noncomputable def Colour.clamp (c : Colour) : Colour :=
  ⟨min c.red 1, min c.green 1, min c.blue 1⟩

instance : Add Colour := ⟨fun a b => ⟨a.red + b.red, a.green + b.green, a.blue + b.blue⟩⟩

/-- impl Mul for Colour: component-wise multiply. -/
instance : Mul Colour := ⟨fun a b => ⟨a.red * b.red, a.green * b.green, a.blue * b.blue⟩⟩

/-- impl Mul of f32 for Colour: scalar multiply. -/
instance : HMul Colour ℝ Colour := ⟨fun c t => ⟨c.red * t, c.green * t, c.blue * t⟩⟩

/-- Sphere from src/scene.rs. -/
structure Sphere where
  center : Point
  radius : ℝ
  colour : Colour
  albedo : ℝ

/-- Plane from src/scene.rs. -/
structure Plane where
  origin : Point
  normal : Vector3
  colour : Colour
  albedo : ℝ

/-- Element from src/scene.rs: the closed surface sum type. -/
inductive Element where
  | sphere (s : Sphere)
  | plane (p : Plane)

/-- Element::colour. -/
def Element.colour : Element → Colour
  | .sphere s => s.colour
  | .plane p => p.colour

/-- Element::albedo. -/
def Element.albedo : Element → ℝ
  | .sphere s => s.albedo
  | .plane p => p.albedo

/-- DirectionalLight from src/scene.rs. -/
structure DirectionalLight where
  direction : Vector3
  colour : Colour
  intensity : ℝ

/-- SphericalLight from src/scene.rs. -/
structure SphericalLight where
  position : Point
  colour : Colour
  intensity : ℝ

/-- Light from src/scene.rs: the closed light sum type. -/
inductive Light where
  | directional (d : DirectionalLight)
  | spherical (s : SphericalLight)

/-- Light::colour. -/
def Light.colour : Light → Colour
  | .directional d => d.colour
  | .spherical s => s.colour

/-- Light::direction_from: directional lights return the negated stored travel
direction; spherical lights return the normalized vector from the hit point
to the light position. -/
noncomputable def Light.direction_from (l : Light) (hit_point : Point) : Vector3 :=
  match l with
  | .directional d => -d.direction
  | .spherical s => (s.position - hit_point).normalize

/-- Light::intensity: directional lights are constant; spherical lights fall
off as intensity / (4 pi r2) with r2 the squared distance. -/
noncomputable def Light.intensity (l : Light) (hit_point : Point) : ℝ :=
  match l with
  | .directional d => d.intensity
  | .spherical s => s.intensity / (4 * Real.pi * (s.position - hit_point).norm)

/-- Light::distance: f64::INFINITY for directional lights (modelled as the top
of EReal), the Euclidean distance for spherical lights. -/
noncomputable def Light.distance (l : Light) (hit_point : Point) : EReal :=
  match l with
  | .directional _ => ⊤
  | .spherical s => ((s.position - hit_point).length : EReal)

/-- Scene from src/scene.rs. -/
structure Scene where
  width : ℕ
  height : ℕ
  fov : ℝ
  elements : List Element
  light : List Light
  shadow_bias : ℝ

/-- Ray from src/render.rs. -/
structure Ray where
  origin : Point
  direction : Vector3

/-- Ray::create_prime_ray: panics (none) when the assert width > height fails,
otherwise builds the normalized camera ray through pixel (x, y). -/
noncomputable def Ray.create_prime_ray (x y : ℕ) (scene : Scene) : Option Ray :=
  if scene.width > scene.height then
    let fov_adjustment := Real.tan (scene.fov * Real.pi / 180 / 2)
    let aspect_ratio := (scene.width : ℝ) / (scene.height : ℝ)
    let sensor_x := ((((x : ℝ) + 0.5) / (scene.width : ℝ)) * 2 - 1) * aspect_ratio * fov_adjustment
    let sensor_y := (1 - (((y : ℝ) + 0.5) / (scene.height : ℝ)) * 2) * fov_adjustment
    some ⟨Point.zero, (Vector3.mk sensor_x sensor_y (-1)).normalize⟩
  else
    none

/-- The local l of Sphere::intersect: the vector from the ray origin to the
sphere center. -/
def Sphere.lvec (s : Sphere) (ray : Ray) : Vector3 := s.center - ray.origin

/-- The local adj of Sphere::intersect: l projected onto the ray direction. -/
def Sphere.adj (s : Sphere) (ray : Ray) : ℝ := (s.lvec ray).dot_prod ray.direction

/-- The local d2 of Sphere::intersect: the perpendicular distance squared. -/
def Sphere.d2 (s : Sphere) (ray : Ray) : ℝ :=
  (s.lvec ray).dot_prod (s.lvec ray) - s.adj ray * s.adj ray

/-- The local radius2 of Sphere::intersect. -/
def Sphere.radius2 (s : Sphere) : ℝ := s.radius * s.radius

/-- The local thc of Sphere::intersect: the half chord. -/
noncomputable def Sphere.thc (s : Sphere) (ray : Ray) : ℝ :=
  Real.sqrt (s.radius2 - s.d2 ray)

/-- The root t0 = adj - thc of Sphere::intersect. -/
noncomputable def Sphere.t0 (s : Sphere) (ray : Ray) : ℝ := s.adj ray - s.thc ray

/-- The root t1 = adj + thc of Sphere::intersect. -/
noncomputable def Sphere.t1 (s : Sphere) (ray : Ray) : ℝ := s.adj ray + s.thc ray

/-- Sphere::intersect from src/render.rs: the geometric quadratic solve. -/
noncomputable def Sphere.intersect (s : Sphere) (ray : Ray) : Option ℝ :=
  if s.d2 ray > s.radius2 then none
  else if s.t0 ray < 0 ∧ s.t1 ray < 0 then none
  else some (if s.t0 ray < s.t1 ray then s.t0 ray else s.t1 ray)

/-- The local denom of Plane::intersect. -/
def Plane.denom (p : Plane) (ray : Ray) : ℝ := p.normal.dot_prod ray.direction

/-- The local distance of Plane::intersect: ((origin - ray.origin) dot normal)
divided by denom. -/
noncomputable def Plane.dist (p : Plane) (ray : Ray) : ℝ :=
  (p.origin - ray.origin).dot_prod p.normal / p.denom ray

/-- Plane::intersect from src/render.rs: one-sided hit behind a 1e-6 threshold
on the denominator. -/
noncomputable def Plane.intersect (p : Plane) (ray : Ray) : Option ℝ :=
  if p.denom ray > 1e-6 then
    if p.dist ray ≥ 0 then some (p.dist ray) else none
  else
    none

/-- Sphere::surface_normal. -/
noncomputable def Sphere.surface_normal (s : Sphere) (hit_point : Point) : Vector3 :=
  (hit_point - s.center).normalize

/-- Plane::surface_normal: always the negated stored normal. -/
def Plane.surface_normal (p : Plane) (_hit_point : Point) : Vector3 := -p.normal

/-- Element intersect dispatch (impl Intersectable for Element). -/
noncomputable def Element.intersect (e : Element) (ray : Ray) : Option ℝ :=
  match e with
  | .sphere s => s.intersect ray
  | .plane p => p.intersect ray

/-- Element surface_normal dispatch. -/
noncomputable def Element.surface_normal (e : Element) (hit_point : Point) : Vector3 :=
  match e with
  | .sphere s => s.surface_normal hit_point
  | .plane p => p.surface_normal hit_point

/-- Intersection from src/scene.rs: a finite distance and the hit element. -/
structure Intersection where
  distance : ℝ
  elements : Element

/-- The candidate list Scene::trace builds: elements.iter().filter_map, in
element order, pairing each reported hit distance with its element. -/
noncomputable def Scene.candidates (scene : Scene) (ray : Ray) : List Intersection :=
  scene.elements.filterMap fun e => (e.intersect ray).map fun d => ⟨d, e⟩

/-- One step of Iterator::min_by: keep the accumulator unless it compares
strictly greater than the new element (stable: ties keep the earlier one). -/
noncomputable def minStep (a b : Intersection) : Intersection :=
  if a.distance > b.distance then b else a

/-- The accumulator update of Iterator::min_by: the first element seeds the
accumulator, later ones go through minStep. -/
noncomputable def minAcc (acc : Option Intersection) (i : Intersection) : Option Intersection :=
  match acc with
  | none => some i
  | some a => some (minStep a i)

/-- Iterator::min_by over the candidate list: a left fold from the first
element, returning none on an empty list. -/
noncomputable def minByDistance : List Intersection → Option Intersection :=
  List.foldl minAcc none

/-- Scene::trace: nearest-hit query, linear scan plus stable min_by. -/
noncomputable def Scene.trace (scene : Scene) (ray : Ray) : Option Intersection :=
  minByDistance (scene.candidates ray)

/-- The hit point computed at the top of get_colour. -/
def hitPoint (ray : Ray) (i : Intersection) : Point :=
  ray.origin + ray.direction * i.distance

/-- The shadow ray built in get_colour for one light. -/
noncomputable def shadowRay (scene : Scene) (hp : Point) (normal : Vector3) (light : Light) : Ray :=
  ⟨hp + normal * scene.shadow_bias, light.direction_from hp⟩

/-- The in_light test in get_colour: lit when the shadow trace reports no hit,
or a hit strictly farther than the light itself. -/
noncomputable def inLight (scene : Scene) (hp : Point) (normal : Vector3) (light : Light) : Prop :=
  match scene.trace (shadowRay scene hp normal light) with
  | none => True
  | some si => (si.distance : EReal) > light.distance hp

noncomputable instance (scene : Scene) (hp : Point) (normal : Vector3) (light : Light) :
    Decidable (inLight scene hp normal light) := by
  unfold inLight
  cases scene.trace (shadowRay scene hp normal light) <;> infer_instance

/-- The colour one light adds to the accumulator in the get_colour loop. -/
noncomputable def lightContribution (scene : Scene) (ray : Ray) (i : Intersection)
    (light : Light) : Colour :=
  let hp := hitPoint ray i
  let surface_normal := i.elements.surface_normal hp
  let direction_to_light := light.direction_from hp
  let light_intensity := if inLight scene hp surface_normal light then light.intensity hp else 0
  let light_power := max (surface_normal.dot_prod direction_to_light) 0 * light_intensity
  let light_reflected := i.elements.albedo / Real.pi
  let light_colour := light.colour * light_power * light_reflected
  i.elements.colour * light_colour

/-- The accumulation loop of get_colour over an initial light list. -/
noncomputable def shadeLights (scene : Scene) (ray : Ray) (i : Intersection)
    (ls : List Light) : Colour :=
  ls.foldl (fun c light => c + lightContribution scene ray i light) ⟨0, 0, 0⟩

/-- get_colour from src/main.rs: accumulate every light then clamp. -/
noncomputable def getColour (scene : Scene) (ray : Ray) (i : Intersection) : Colour :=
  (shadeLights scene ray i scene.light).clamp

/-- The Rust saturating float-to-u8 cast: truncate toward zero, clamp to
0..255, used on each colour channel already scaled by 255. -/
noncomputable def castU8 (x : ℝ) : ℕ :=
  if x ≤ 0 then 0 else if x ≥ 255 then 255 else (⌊x⌋).toNat

/-- to_rgba from src/main.rs: each channel scaled by 255 and cast with as u8,
and an alpha channel of 0. -/
noncomputable def to_rgba (colour : Colour) : ℕ × ℕ × ℕ × ℕ :=
  (castU8 (colour.red * 255), castU8 (colour.green * 255), castU8 (colour.blue * 255), 0)

/-- A 64-bit float distance as Scene::trace handles it: NaN, an infinity, or
a finite real. -/
inductive FVal where
  | nan
  | posInf
  | negInf
  | fin (x : ℝ)

/-- f64::is_finite. -/
def FVal.isFinite : FVal → Bool
  | .fin _ => true
  | _ => false

/-- f64::partial_cmp: none exactly when either side is NaN. -/
noncomputable def FVal.pcmp : FVal → FVal → Option Ordering
  | .nan, _ => none
  | _, .nan => none
  | .posInf, .posInf => some .eq
  | .posInf, _ => some .gt
  | .negInf, .negInf => some .eq
  | .negInf, _ => some .lt
  | .fin _, .posInf => some .lt
  | .fin _, .negInf => some .gt
  | .fin x, .fin y => some (if x < y then .lt else if x = y then .eq else .gt)

/-- An intersection before the finiteness of its distance is known. -/
structure IntersectionF where
  distance : FVal
  elements : Element

/-- Intersection::new from src/scene.rs: panic (none) on a non-finite
distance, otherwise carry exactly the distance and the element. -/
def IntersectionF.new (distance : FVal) (element : Element) : Option IntersectionF :=
  if distance.isFinite then some ⟨distance, element⟩ else none

/-- The filter_map stage of Scene::trace at float level: each element comes
with the Option distance its intersect returned; hits pass through
Intersection::new, whose panic aborts the whole query (outer none). -/
def buildCandidates : List (Option FVal × Element) → Option (List IntersectionF)
  | [] => some []
  | (none, _) :: t => buildCandidates t
  | (some d, e) :: t =>
    match IntersectionF.new d e with
    | none => none
    | some i => (buildCandidates t).map (i :: ·)

/-- One min_by comparison at float level: partial_cmp followed by unwrap,
whose panic on NaN is the outer none. -/
noncomputable def minStepF (a b : IntersectionF) : Option IntersectionF :=
  (a.distance.pcmp b.distance).map fun o => if o = .gt then b else a

/-- Iterator::min_by at float level: a left reduce; an unwrap panic inside
any comparison aborts the query (outer none). -/
noncomputable def minByF : List IntersectionF → Option (Option IntersectionF)
  | [] => some none
  | a :: t => go a t
where
  go (a : IntersectionF) : List IntersectionF → Option (Option IntersectionF)
    | [] => some (some a)
    | b :: t =>
      match minStepF a b with
      | none => none
      | some c => go c t

/-- Scene::trace at float level: build the candidates through
Intersection::new, then run min_by; none is a panic anywhere inside. -/
noncomputable def traceF (rs : List (Option FVal × Element)) : Option (Option IntersectionF) :=
  match buildCandidates rs with
  | none => none
  | some cs => minByF cs

/-! Component-evaluation lemmas for the algebra instances, used to compute
the embedded functions on concrete inputs. -/

theorem point_sub_def (p q : Point) :
    p - q = Vector3.mk (p.x - q.x) (p.y - q.y) (p.z - q.z) := rfl

theorem point_add_vec_def (p : Point) (v : Vector3) :
    p + v = Point.mk (p.x + v.x) (p.y + v.y) (p.z + v.z) := rfl

theorem vec_smul_def (v : Vector3) (t : ℝ) :
    v * t = Vector3.mk (v.x * t) (v.y * t) (v.z * t) := rfl

theorem vec_neg_def (v : Vector3) : -v = Vector3.mk (-v.x) (-v.y) (-v.z) := rfl

theorem colour_add_def (a b : Colour) :
    a + b = Colour.mk (a.red + b.red) (a.green + b.green) (a.blue + b.blue) := rfl

theorem colour_mul_def (a b : Colour) :
    a * b = Colour.mk (a.red * b.red) (a.green * b.green) (a.blue * b.blue) := rfl

theorem colour_smul_def (c : Colour) (t : ℝ) :
    c * t = Colour.mk (c.red * t) (c.green * t) (c.blue * t) := rfl

/-! Claim C4: Plane::intersect. -/

theorem plane_intersect_below_threshold (p : Plane) (ray : Ray)
    (h : ¬ p.denom ray > 1e-6) : p.intersect ray = none := by
  unfold Plane.intersect
  rw [if_neg h]

theorem plane_intersect_negative (p : Plane) (ray : Ray)
    (h : p.denom ray > 1e-6) (hd : p.dist ray < 0) : p.intersect ray = none := by
  unfold Plane.intersect
  rw [if_pos h, if_neg (not_le.mpr hd)]

theorem plane_intersect_hit (p : Plane) (ray : Ray)
    (h : p.denom ray > 1e-6) (hd : p.dist ray ≥ 0) :
    p.intersect ray = some (p.dist ray) := by
  unfold Plane.intersect
  rw [if_pos h, if_pos hd]

/-- Claim C4: Plane::intersect returns no-hit when denom = normal dot direction
is not greater than 1e-6; otherwise it computes
distance = ((origin - ray.origin) dot normal) / denom and returns no-hit when
that distance is negative and the distance itself otherwise. -/
theorem C4_plane_intersect (p : Plane) (ray : Ray) :
    (p.denom ray ≤ 1e-6 → p.intersect ray = none) ∧
    (p.denom ray > 1e-6 → p.dist ray < 0 → p.intersect ray = none) ∧
    (p.denom ray > 1e-6 → p.dist ray ≥ 0 → p.intersect ray = some (p.dist ray)) :=
  ⟨fun h => plane_intersect_below_threshold p ray (not_lt.mpr h),
   plane_intersect_negative p ray,
   plane_intersect_hit p ray⟩

/-- Witness for C4 at concrete inputs: a plane at z = -2 with normal (0,0,-1)
is hit at distance 2 by the ray from the origin along (0,0,-1); the same plane
misses the ray along (0,0,1) whose denom is negative. -/
theorem C4_plane_intersect_witness :
    (Plane.mk ⟨0, 0, -2⟩ ⟨0, 0, -1⟩ ⟨1, 1, 1⟩ 1).intersect
      ⟨Point.zero, ⟨0, 0, -1⟩⟩ = some 2 ∧
    (Plane.mk ⟨0, 0, -2⟩ ⟨0, 0, -1⟩ ⟨1, 1, 1⟩ 1).intersect
      ⟨Point.zero, ⟨0, 0, 1⟩⟩ = none := by
  have hden : (Plane.mk ⟨0, 0, -2⟩ ⟨0, 0, -1⟩ ⟨1, 1, 1⟩ 1).denom
      ⟨Point.zero, ⟨0, 0, -1⟩⟩ = 1 := by
    simp [Plane.denom, Vector3.dot_prod]
  have hdist : (Plane.mk ⟨0, 0, -2⟩ ⟨0, 0, -1⟩ ⟨1, 1, 1⟩ 1).dist
      ⟨Point.zero, ⟨0, 0, -1⟩⟩ = 2 := by
    norm_num [Plane.dist, Plane.denom, Vector3.dot_prod, point_sub_def, Point.zero]
  have hden2 : (Plane.mk ⟨0, 0, -2⟩ ⟨0, 0, -1⟩ ⟨1, 1, 1⟩ 1).denom
      ⟨Point.zero, ⟨0, 0, 1⟩⟩ = -1 := by
    simp [Plane.denom, Vector3.dot_prod]
  constructor
  · have h := (C4_plane_intersect (Plane.mk ⟨0, 0, -2⟩ ⟨0, 0, -1⟩ ⟨1, 1, 1⟩ 1)
      ⟨Point.zero, ⟨0, 0, -1⟩⟩).2.2 (by rw [hden]; norm_num) (by rw [hdist]; norm_num)
    rw [h, hdist]
  · exact (C4_plane_intersect (Plane.mk ⟨0, 0, -2⟩ ⟨0, 0, -1⟩ ⟨1, 1, 1⟩ 1)
      ⟨Point.zero, ⟨0, 0, 1⟩⟩).1 (by rw [hden2]; norm_num)

/-! Claim C1: Sphere::intersect. -/

theorem sphere_intersect_miss (s : Sphere) (ray : Ray)
    (h : s.d2 ray > s.radius2) : s.intersect ray = none := by
  unfold Sphere.intersect
  rw [if_pos h]

theorem sphere_intersect_behind (s : Sphere) (ray : Ray)
    (hle : ¬ s.d2 ray > s.radius2) (h0 : s.t0 ray < 0) (h1 : s.t1 ray < 0) :
    s.intersect ray = none := by
  unfold Sphere.intersect
  rw [if_neg hle, if_pos ⟨h0, h1⟩]

theorem sphere_intersect_hit (s : Sphere) (ray : Ray)
    (hle : ¬ s.d2 ray > s.radius2) (hn : ¬ (s.t0 ray < 0 ∧ s.t1 ray < 0)) :
    s.intersect ray = some (min (s.t0 ray) (s.t1 ray)) := by
  unfold Sphere.intersect
  rw [if_neg hle, if_neg hn]
  congr 1
  split_ifs with h
  · exact (min_eq_left h.le).symm
  · exact (min_eq_right (not_lt.mp h)).symm

theorem sphere_intersect_inside (s : Sphere) (ray : Ray)
    (hin : (s.lvec ray).dot_prod (s.lvec ray) < s.radius2) :
    s.intersect ray = some (s.t0 ray) ∧ s.t0 ray < 0 := by
  have hsq : (0:ℝ) ≤ s.adj ray * s.adj ray := mul_self_nonneg _
  have hd2 : s.d2 ray ≤ (s.lvec ray).dot_prod (s.lvec ray) := by
    unfold Sphere.d2; linarith
  have hle : ¬ s.d2 ray > s.radius2 := not_lt.mpr (by linarith)
  have habs : |s.adj ray| < s.thc ray := by
    unfold Sphere.thc
    refine (Real.lt_sqrt (abs_nonneg _)).mpr ?_
    rw [sq_abs, sq]
    unfold Sphere.d2
    linarith
  have ht0 : s.t0 ray < 0 := by
    unfold Sphere.t0
    have := le_abs_self (s.adj ray)
    linarith
  have ht1 : 0 < s.t1 ray := by
    unfold Sphere.t1
    have := neg_abs_le (s.adj ray)
    linarith
  have hlt : s.t0 ray < s.t1 ray := lt_trans ht0 ht1
  refine ⟨?_, ht0⟩
  unfold Sphere.intersect
  rw [if_neg hle, if_neg (by rintro ⟨-, h⟩; exact absurd ht1 (not_lt.mpr h.le)),
    if_pos hlt]

/-- Claim C1: Sphere::intersect returns no-hit when the perpendicular distance
squared d2 exceeds radius squared, no-hit when both roots t0 = adj - thc and
t1 = adj + thc are negative, and otherwise min t0 t1; and for a ray origin
strictly inside the sphere it returns the negative root t0. -/
theorem C1_sphere_intersect (s : Sphere) (ray : Ray) :
    (s.d2 ray > s.radius2 → s.intersect ray = none) ∧
    (s.d2 ray ≤ s.radius2 → s.t0 ray < 0 → s.t1 ray < 0 → s.intersect ray = none) ∧
    (s.d2 ray ≤ s.radius2 → ¬ (s.t0 ray < 0 ∧ s.t1 ray < 0) →
      s.intersect ray = some (min (s.t0 ray) (s.t1 ray))) ∧
    ((s.lvec ray).dot_prod (s.lvec ray) < s.radius2 →
      s.intersect ray = some (s.t0 ray) ∧ s.t0 ray < 0) :=
  ⟨sphere_intersect_miss s ray,
   fun hle h0 h1 => sphere_intersect_behind s ray (not_lt.mpr hle) h0 h1,
   fun hle hn => sphere_intersect_hit s ray (not_lt.mpr hle) hn,
   sphere_intersect_inside s ray⟩

/-- Witness for C1 at concrete inputs: a unit sphere far off the ray axis is
missed, and a radius-2 sphere whose center is the ray origin (origin inside)
returns the negative root -2. -/
theorem C1_sphere_intersect_witness :
    (Sphere.mk ⟨0, 0, 5⟩ 1 ⟨1, 1, 1⟩ 1).intersect ⟨Point.zero, ⟨1, 0, 0⟩⟩ = none ∧
    (Sphere.mk ⟨0, 0, 0⟩ 2 ⟨1, 1, 1⟩ 1).intersect ⟨Point.zero, ⟨1, 0, 0⟩⟩ =
      some (-2) := by
  constructor
  · refine (C1_sphere_intersect (Sphere.mk ⟨0, 0, 5⟩ 1 ⟨1, 1, 1⟩ 1)
      ⟨Point.zero, ⟨1, 0, 0⟩⟩).1 ?_
    simp [Sphere.d2, Sphere.radius2, Sphere.adj, Sphere.lvec, Vector3.dot_prod,
      point_sub_def, Point.zero]
    norm_num
  · have h := (C1_sphere_intersect (Sphere.mk ⟨0, 0, 0⟩ 2 ⟨1, 1, 1⟩ 1)
      ⟨Point.zero, ⟨1, 0, 0⟩⟩).2.2.2 (by
        norm_num [Sphere.radius2, Sphere.lvec, Vector3.dot_prod, point_sub_def,
          Point.zero])
    rw [h.1]
    have ht0 : (Sphere.mk ⟨0, 0, 0⟩ 2 ⟨1, 1, 1⟩ 1).t0 ⟨Point.zero, ⟨1, 0, 0⟩⟩ = -2 := by
      unfold Sphere.t0 Sphere.thc
      have hadj : (Sphere.mk ⟨0, 0, 0⟩ 2 ⟨1, 1, 1⟩ 1).adj ⟨Point.zero, ⟨1, 0, 0⟩⟩ = 0 := by
        simp [Sphere.adj, Sphere.lvec, Vector3.dot_prod, point_sub_def, Point.zero]
      have hd2 : (Sphere.mk ⟨0, 0, 0⟩ 2 ⟨1, 1, 1⟩ 1).d2 ⟨Point.zero, ⟨1, 0, 0⟩⟩ = 0 := by
        simp [Sphere.d2, Sphere.adj, Sphere.lvec, Vector3.dot_prod, point_sub_def,
          Point.zero]
      rw [hadj, hd2]
      have : (Sphere.mk ⟨0, 0, 0⟩ 2 ⟨1, 1, 1⟩ 1).radius2 - 0 = 2 ^ 2 := by
        simp [Sphere.radius2]; norm_num
      rw [this, Real.sqrt_sq (by norm_num : (0:ℝ) ≤ 2)]
      norm_num
    rw [ht0]

/-! Claim C7: the two loud invariant violations. -/

/-- Claim C7: Intersection::new panics on a non-finite distance and otherwise
returns an intersection carrying exactly that distance and element, and
Ray::create_prime_ray panics when the scene width is not greater than the
height. -/
theorem C7_invariant_panics (d : FVal) (e : Element) (scene : Scene) (x y : ℕ) :
    (¬ d.isFinite = true → IntersectionF.new d e = none) ∧
    (d.isFinite = true → IntersectionF.new d e = some ⟨d, e⟩) ∧
    (scene.width ≤ scene.height → Ray.create_prime_ray x y scene = none) := by
  refine ⟨fun h => ?_, fun h => ?_, fun h => ?_⟩
  · unfold IntersectionF.new
    rw [if_neg h]
  · unfold IntersectionF.new
    rw [if_pos h]
  · unfold Ray.create_prime_ray
    rw [if_neg (not_lt.mpr h)]

/-- Witness for C7 at concrete inputs: NaN distance panics, a finite distance
is stored unchanged, and a 1 by 2 scene panics in create_prime_ray. -/
theorem C7_invariant_panics_witness :
    IntersectionF.new .nan (Element.plane ⟨⟨0, 0, 0⟩, ⟨0, 0, 1⟩, ⟨1, 1, 1⟩, 1⟩) = none ∧
    IntersectionF.new (.fin 1) (Element.plane ⟨⟨0, 0, 0⟩, ⟨0, 0, 1⟩, ⟨1, 1, 1⟩, 1⟩) =
      some ⟨.fin 1, Element.plane ⟨⟨0, 0, 0⟩, ⟨0, 0, 1⟩, ⟨1, 1, 1⟩, 1⟩⟩ ∧
    Ray.create_prime_ray 0 0 ⟨1, 2, 90, [], [], 1e-4⟩ = none := by
  refine ⟨?_, ?_, ?_⟩
  · exact (C7_invariant_panics .nan (Element.plane ⟨⟨0, 0, 0⟩, ⟨0, 0, 1⟩, ⟨1, 1, 1⟩, 1⟩)
      ⟨1, 2, 90, [], [], 1e-4⟩ 0 0).1 (by simp [FVal.isFinite])
  · exact (C7_invariant_panics (.fin 1) (Element.plane ⟨⟨0, 0, 0⟩, ⟨0, 0, 1⟩, ⟨1, 1, 1⟩, 1⟩)
      ⟨1, 2, 90, [], [], 1e-4⟩ 0 0).2.1 rfl
  · exact (C7_invariant_panics .nan (Element.plane ⟨⟨0, 0, 0⟩, ⟨0, 0, 1⟩, ⟨1, 1, 1⟩, 1⟩)
      ⟨1, 2, 90, [], [], 1e-4⟩ 0 0).2.2 (by norm_num)

/-! Claim C9: the to_rgba pixel encoding.  The code truncates (Rust as u8)
rather than rounds, and writes an alpha of 0 rather than full alpha, so the
claim is corrected. -/

/-- Counterexample to C9 as stated: at the in-range channel value 1/2, the
code yields the truncated byte 127 with alpha 0, not the rounded byte 128
with full alpha 255. -/
theorem C9_counterexample :
    to_rgba ⟨1/2, 1/2, 1/2⟩ ≠
      ((round ((1/2 : ℝ) * 255)).toNat, (round ((1/2 : ℝ) * 255)).toNat,
       (round ((1/2 : ℝ) * 255)).toNat, 255) := by
  have hfloor : ⌊(1/2 : ℝ) * 255⌋ = 127 := by
    rw [Int.floor_eq_iff]
    norm_num
  have hcast : castU8 ((1/2 : ℝ) * 255) = 127 := by
    unfold castU8
    rw [if_neg (by norm_num), if_neg (by norm_num), hfloor]
    rfl
  have hround : round ((1/2 : ℝ) * 255) = 128 := by
    rw [round_eq, Int.floor_eq_iff]
    norm_num
  unfold to_rgba
  rw [hcast, hround]
  intro h
  exact absurd (congrArg (fun q => q.2.2.2) h) (by norm_num)

/-- Claim C9 as amended: for channels in the range 0 to 1, to_rgba maps each
channel c to the truncated byte, the floor of c * 255, and writes an alpha
of 0. -/
theorem C9_to_rgba (c : Colour)
    (hr : 0 ≤ c.red ∧ c.red ≤ 1) (hg : 0 ≤ c.green ∧ c.green ≤ 1)
    (hb : 0 ≤ c.blue ∧ c.blue ≤ 1) :
    to_rgba c = ((⌊c.red * 255⌋).toNat, (⌊c.green * 255⌋).toNat,
      (⌊c.blue * 255⌋).toNat, 0) := by
  have key : ∀ x : ℝ, 0 ≤ x → x ≤ 1 → castU8 (x * 255) = (⌊x * 255⌋).toNat := by
    intro x h0 h1
    unfold castU8
    rcases eq_or_lt_of_le h0 with h | h
    · rw [if_pos (by rw [← h]; norm_num)]
      rw [← h]
      norm_num
    · rcases eq_or_lt_of_le h1 with h2 | h2
      · rw [if_neg (by rw [h2]; norm_num), if_pos (by rw [h2]; norm_num), h2]
        have h255 : ⌊(1 : ℝ) * 255⌋ = 255 := by norm_num
        rw [h255]
        decide
      · rw [if_neg (by nlinarith), if_neg (by nlinarith)]
  unfold to_rgba
  rw [key c.red hr.1 hr.2, key c.green hg.1 hg.2, key c.blue hb.1 hb.2]

/-- Witness for the amended C9 at the colour (1, 0, 1/2): the encoded pixel is
(255, 0, 127, 0). -/
theorem C9_to_rgba_witness :
    to_rgba ⟨1, 0, 1/2⟩ = (255, 0, 127, 0) := by
  have h := C9_to_rgba ⟨1, 0, 1/2⟩ (by norm_num) (by norm_num) (by norm_num)
  rw [h]
  have h1 : ⌊(1 : ℝ) * 255⌋ = 255 := by norm_num
  have h2 : ⌊(0 : ℝ) * 255⌋ = 0 := by norm_num
  have h3 : ⌊(1/2 : ℝ) * 255⌋ = 127 := by
    rw [Int.floor_eq_iff]
    norm_num
  rw [h1, h2, h3]
  rfl

/-! Claim C6: Light::direction_from.  The structural description matches the
code, but the result is not unit length for a directional light whose stored
direction is not unit length (the shipped scene stores (0.25, 0, -2)), so the
unconditional unit-length part of the claim is corrected. -/

/-- A normalized nonzero vector has squared length 1. -/
theorem normalize_norm_one (v : Vector3) (h : v.norm ≠ 0) : v.normalize.norm = 1 := by
  have hnn : 0 ≤ v.norm := by
    unfold Vector3.norm
    exact add_nonneg (add_nonneg (mul_self_nonneg _) (mul_self_nonneg _)) (mul_self_nonneg _)
  have hl : v.length * v.length = v.norm := Real.mul_self_sqrt hnn
  have hl0 : v.length ≠ 0 := by
    unfold Vector3.length
    rw [ne_eq, Real.sqrt_eq_zero hnn]
    exact h
  unfold Vector3.normalize Vector3.norm at *
  field_simp
  linarith [hl]

/-- Counterexample to C6 as stated: the directional light with stored travel
direction (0, 0, -2) yields a direction_from of squared length 4, not a unit
vector. -/
theorem C6_counterexample :
    ((Light.directional ⟨⟨0, 0, -2⟩, ⟨1, 1, 1⟩, 1⟩).direction_from Point.zero).norm ≠ 1 := by
  norm_num [Light.direction_from, vec_neg_def, Vector3.norm]

/-- Claim C6 as amended: direction_from returns, for a directional light, the
negation of the stored travel direction (unit length whenever the stored
direction is unit length), and for a spherical light the normalized vector
from the hit point to the light position (unit length whenever the hit point
differs from the light position). -/
theorem C6_direction_from :
    (∀ (d : DirectionalLight) (hp : Point),
      (Light.directional d).direction_from hp = -d.direction ∧
      (d.direction.norm = 1 → ((Light.directional d).direction_from hp).norm = 1)) ∧
    (∀ (s : SphericalLight) (hp : Point),
      (Light.spherical s).direction_from hp = (s.position - hp).normalize ∧
      ((s.position - hp).norm ≠ 0 → ((Light.spherical s).direction_from hp).norm = 1)) := by
  constructor
  · intro d hp
    refine ⟨rfl, fun h => ?_⟩
    show (-d.direction).norm = 1
    rw [vec_neg_def]
    unfold Vector3.norm at *
    ring_nf
    ring_nf at h
    exact h
  · intro s hp
    exact ⟨rfl, fun h => normalize_norm_one _ h⟩

/-- Witness for the amended C6: a unit directional light direction stays unit,
and the spherical light at (0, 0, 3) seen from the origin gives a unit
direction. -/
theorem C6_direction_from_witness :
    ((Light.directional ⟨⟨0, 0, -1⟩, ⟨1, 1, 1⟩, 1⟩).direction_from Point.zero).norm = 1 ∧
    ((Light.spherical ⟨⟨0, 0, 3⟩, ⟨1, 1, 1⟩, 1⟩).direction_from Point.zero).norm = 1 := by
  constructor
  · exact (C6_direction_from.1 ⟨⟨0, 0, -1⟩, ⟨1, 1, 1⟩, 1⟩ Point.zero).2
      (by norm_num [Vector3.norm])
  · exact (C6_direction_from.2 ⟨⟨0, 0, 3⟩, ⟨1, 1, 1⟩, 1⟩ Point.zero).2
      (by norm_num [Vector3.norm, point_sub_def, Point.zero])

/-! Claim C3: the shadow test and occluded lights in get_colour. -/

theorem not_lit_of_close_hit (scene : Scene) (hp : Point) (n : Vector3) (light : Light)
    (si : Intersection) (h : scene.trace (shadowRay scene hp n light) = some si)
    (hlt : (si.distance : EReal) < light.distance hp) :
    ¬ inLight scene hp n light := by
  unfold inLight
  rw [h]
  exact lt_asymm hlt

theorem contribution_zero_of_not_lit (scene : Scene) (ray : Ray) (i : Intersection)
    (light : Light)
    (hn : ¬ inLight scene (hitPoint ray i) (i.elements.surface_normal (hitPoint ray i)) light) :
    lightContribution scene ray i light = ⟨0, 0, 0⟩ := by
  simp only [lightContribution]
  rw [if_neg hn]
  simp [colour_mul_def, colour_smul_def]

/-- Claim C3: in the shading loop a hit point is lit for a light exactly when
the shadow trace reports no hit or a hit strictly beyond the light distance,
and a light whose shadow trace reports an occluder strictly closer than the
light contributes the zero colour. -/
theorem C3_shadow_occlusion (scene : Scene) (ray : Ray) (i : Intersection) (light : Light) :
    (inLight scene (hitPoint ray i) (i.elements.surface_normal (hitPoint ray i)) light ↔
      (scene.trace (shadowRay scene (hitPoint ray i)
          (i.elements.surface_normal (hitPoint ray i)) light) = none ∨
        ∃ si, scene.trace (shadowRay scene (hitPoint ray i)
            (i.elements.surface_normal (hitPoint ray i)) light) = some si ∧
          (si.distance : EReal) > light.distance (hitPoint ray i))) ∧
    (¬ inLight scene (hitPoint ray i) (i.elements.surface_normal (hitPoint ray i)) light →
      lightContribution scene ray i light = ⟨0, 0, 0⟩) ∧
    (∀ si, scene.trace (shadowRay scene (hitPoint ray i)
        (i.elements.surface_normal (hitPoint ray i)) light) = some si →
      (si.distance : EReal) < light.distance (hitPoint ray i) →
      lightContribution scene ray i light = ⟨0, 0, 0⟩) := by
  refine ⟨?_, contribution_zero_of_not_lit scene ray i light, fun si h hlt =>
    contribution_zero_of_not_lit scene ray i light (not_lit_of_close_hit _ _ _ _ si h hlt)⟩
  unfold inLight
  cases h : scene.trace (shadowRay scene (hitPoint ray i)
      (i.elements.surface_normal (hitPoint ray i)) light) with
  | none => simp
  | some si => simp

/-! A concrete occlusion scene for the C3 witness: the camera-side sphere at
(0,0,3) with radius 1 sits strictly between the hit point at the origin and
the spherical light at (0,0,10). -/

def occSphere : Sphere := ⟨⟨0, 0, 3⟩, 1, ⟨1, 1, 1⟩, 1⟩

def occElement : Element := .sphere occSphere

def occLight : Light := .spherical ⟨⟨0, 0, 10⟩, ⟨1, 1, 1⟩, 1⟩

def occScene : Scene := ⟨2, 1, 90, [occElement], [occLight], 0⟩

def occRay : Ray := ⟨Point.zero, ⟨0, 0, 1⟩⟩

def occHit : Intersection := ⟨0, occElement⟩

def occShadowRay : Ray := ⟨⟨0, 0, 0⟩, ⟨0, 0, 1⟩⟩

theorem occ_hit_point : hitPoint occRay occHit = Point.mk 0 0 0 := by
  norm_num [hitPoint, occRay, occHit, point_add_vec_def, vec_smul_def, Point.zero]

theorem occ_direction : occLight.direction_from (Point.mk 0 0 0) = Vector3.mk 0 0 1 := by
  have hsub : (Point.mk (0:ℝ) 0 10) - (Point.mk (0:ℝ) 0 0) = Vector3.mk (0:ℝ) 0 10 := by
    norm_num [point_sub_def]
  have hlen : (Vector3.mk (0:ℝ) 0 10).length = 10 := by
    unfold Vector3.length Vector3.norm
    rw [show (0:ℝ) * 0 + 0 * 0 + 10 * 10 = 10 ^ 2 by norm_num,
      Real.sqrt_sq (by norm_num : (0:ℝ) ≤ 10)]
  simp only [occLight, Light.direction_from]
  rw [hsub]
  unfold Vector3.normalize
  rw [hlen]
  norm_num

theorem occ_shadow_ray :
    shadowRay occScene (hitPoint occRay occHit)
      (occHit.elements.surface_normal (hitPoint occRay occHit)) occLight = occShadowRay := by
  rw [occ_hit_point]
  simp only [shadowRay, occShadowRay, occScene]
  rw [occ_direction]
  norm_num [point_add_vec_def, vec_smul_def]

theorem occ_sphere_intersect : occSphere.intersect occShadowRay = some 2 := by
  have hadj : occSphere.adj occShadowRay = 3 := by
    norm_num [Sphere.adj, Sphere.lvec, Vector3.dot_prod, point_sub_def, occSphere,
      occShadowRay]
  have hd2 : occSphere.d2 occShadowRay = 0 := by
    norm_num [Sphere.d2, Sphere.adj, Sphere.lvec, Vector3.dot_prod, point_sub_def,
      occSphere, occShadowRay]
  have hr2 : occSphere.radius2 = 1 := by norm_num [Sphere.radius2, occSphere]
  have hthc : occSphere.thc occShadowRay = 1 := by
    unfold Sphere.thc
    rw [hd2, hr2, sub_zero, Real.sqrt_one]
  have ht0 : occSphere.t0 occShadowRay = 2 := by
    unfold Sphere.t0
    rw [hadj, hthc]
    norm_num
  have ht1 : occSphere.t1 occShadowRay = 4 := by
    unfold Sphere.t1
    rw [hadj, hthc]
    norm_num
  rw [sphere_intersect_hit occSphere occShadowRay (by rw [hd2, hr2]; norm_num)
    (by rw [ht0, ht1]; norm_num), ht0, ht1]
  norm_num

theorem occ_trace : occScene.trace occShadowRay = some ⟨2, occElement⟩ := by
  have hcand : occScene.candidates occShadowRay = [⟨2, occElement⟩] := by
    simp [Scene.candidates, occScene, occElement, Element.intersect, occ_sphere_intersect]
  unfold Scene.trace
  rw [hcand]
  simp [minByDistance, minAcc]

theorem occ_light_distance : occLight.distance (Point.mk 0 0 0) = ((10 : ℝ) : EReal) := by
  have hsub : (Point.mk (0:ℝ) 0 10) - (Point.mk (0:ℝ) 0 0) = Vector3.mk (0:ℝ) 0 10 := by
    norm_num [point_sub_def]
  have hlen : (Vector3.mk (0:ℝ) 0 10).length = 10 := by
    unfold Vector3.length Vector3.norm
    rw [show (0:ℝ) * 0 + 0 * 0 + 10 * 10 = 10 ^ 2 by norm_num,
      Real.sqrt_sq (by norm_num : (0:ℝ) ≤ 10)]
  simp only [occLight, Light.distance]
  rw [hsub, hlen]

/-- Witness for C3 at the concrete occlusion scene: the sphere occluder at
distance 2 is strictly closer than the light at distance 10, so the light
contributes the zero colour. -/
theorem C3_shadow_occlusion_witness :
    lightContribution occScene occRay occHit occLight = ⟨0, 0, 0⟩ := by
  refine (C3_shadow_occlusion occScene occRay occHit occLight).2.2 ⟨2, occElement⟩ ?_ ?_
  · rw [occ_shadow_ray]
    exact occ_trace
  · rw [occ_hit_point, occ_light_distance]
    exact EReal.coe_lt_coe_iff.mpr (by norm_num)

/-! Claim C2: Scene::trace nearest-hit selection with stable min_by
tie-breaking. -/

theorem foldl_minAcc_spec (t : List Intersection) :
    ∀ a : Intersection, ∃ c pre post,
      List.foldl minAcc (some a) t = some c ∧
      a :: t = pre ++ c :: post ∧
      (∀ j ∈ a :: t, c.distance ≤ j.distance) ∧
      (∀ j ∈ pre, c.distance < j.distance) := by
  induction t with
  | nil =>
    intro a
    exact ⟨a, [], [], rfl, rfl, by simp, by simp⟩
  | cons b t ih =>
    intro a
    have hstep : List.foldl minAcc (some a) (b :: t) =
        List.foldl minAcc (some (minStep a b)) t := rfl
    by_cases hab : a.distance > b.distance
    · have hm : minStep a b = b := by unfold minStep; rw [if_pos hab]
      obtain ⟨c, pre, post, hfold, hdec, hmin, hpre⟩ := ih (minStep a b)
      rw [hm] at hfold hdec hmin
      refine ⟨c, a :: pre, post, ?_, ?_, ?_, ?_⟩
      · rw [hstep, hm]
        exact hfold
      · rw [List.cons_append, ← hdec]
      · intro j hj
        rcases List.mem_cons.mp hj with rfl | hj
        · exact (hmin b (List.mem_cons_self b t)).trans hab.le
        · exact hmin j hj
      · intro j hj
        rcases List.mem_cons.mp hj with rfl | hj
        · exact lt_of_le_of_lt (hmin b (List.mem_cons_self b t)) hab
        · exact hpre j hj
    · have hm : minStep a b = a := by unfold minStep; rw [if_neg hab]
      have hab' : a.distance ≤ b.distance := not_lt.mp hab
      obtain ⟨c, pre, post, hfold, hdec, hmin, hpre⟩ := ih (minStep a b)
      rw [hm] at hfold hdec hmin
      cases pre with
      | nil =>
        simp only [List.nil_append] at hdec
        have hc : c = a := by
          have := congrArg List.head? hdec
          simpa using this.symm
        have hpost : t = post := by
          have := congrArg List.tail hdec
          simpa using this
        refine ⟨c, [], b :: post, ?_, ?_, ?_, by simp⟩
        · rw [hstep, hm]
          exact hfold
        · simp [hc, ← hpost]
        · intro j hj
          rcases List.mem_cons.mp hj with rfl | hj
          · exact le_of_eq (by rw [hc])
          · rcases List.mem_cons.mp hj with rfl | hj
            · rw [hc]; exact hab'
            · exact hmin j (List.mem_cons_of_mem a hj)
      | cons a0 pre2 =>
        rw [List.cons_append] at hdec
        have h1 : a = a0 ∧ t = pre2 ++ c :: post := by
          constructor
          · have := congrArg List.head? hdec
            simpa using this
          · have := congrArg List.tail hdec
            simpa using this
        have hca : c.distance < a.distance := by
          rw [h1.1]
          exact hpre a0 (List.mem_cons_self a0 pre2)
        refine ⟨c, a :: b :: pre2, post, ?_, ?_, ?_, ?_⟩
        · rw [hstep, hm]
          exact hfold
        · simp [List.cons_append, h1.2]
        · intro j hj
          rcases List.mem_cons.mp hj with rfl | hj
          · exact hca.le
          · rcases List.mem_cons.mp hj with rfl | hj
            · exact hca.le.trans hab'
            · exact hmin j (List.mem_cons_of_mem a hj)
        · intro j hj
          rcases List.mem_cons.mp hj with rfl | hj
          · exact hca
          · rcases List.mem_cons.mp hj with rfl | hj
            · exact lt_of_lt_of_le hca hab'
            · exact hpre j (List.mem_cons_of_mem a0 hj)

theorem minByDistance_nil_iff (l : List Intersection) :
    minByDistance l = none ↔ l = [] := by
  cases l with
  | nil => simp [minByDistance]
  | cons a t =>
    obtain ⟨c, pre, post, hfold, -, -, -⟩ := foldl_minAcc_spec t a
    have : minByDistance (a :: t) = some c := by
      unfold minByDistance
      rw [List.foldl_cons]
      exact hfold
    simp [this]

/-- Claim C2: Scene::trace returns no-hit exactly when no surface reports a
hit; the candidate list pairs, in surface order, each reported hit distance
with its element; and a returned intersection is a candidate of minimum
distance preceded only by candidates of strictly greater distance (the
stable min_by tie-break in favour of the first-encountered surface). -/
theorem C2_trace_nearest (scene : Scene) (ray : Ray) :
    (scene.trace ray = none ↔ ∀ e ∈ scene.elements, e.intersect ray = none) ∧
    (∀ j : Intersection, j ∈ scene.candidates ray ↔
      ∃ e ∈ scene.elements, e.intersect ray = some j.distance ∧ j.elements = e) ∧
    (∀ i, scene.trace ray = some i →
      ∃ pre post, scene.candidates ray = pre ++ i :: post ∧
        (∀ j ∈ scene.candidates ray, i.distance ≤ j.distance) ∧
        (∀ j ∈ pre, i.distance < j.distance)) := by
  refine ⟨?_, ?_, ?_⟩
  · rw [Scene.trace, minByDistance_nil_iff, Scene.candidates, List.filterMap_eq_nil_iff]
    constructor
    · intro h e he
      have := h e he
      simpa using this
    · intro h e he
      simp [h e he]
  · intro j
    rw [Scene.candidates, List.mem_filterMap]
    constructor
    · rintro ⟨e, he, hmap⟩
      rw [Option.map_eq_some'] at hmap
      obtain ⟨d, hd, hje⟩ := hmap
      subst hje
      exact ⟨e, he, hd, rfl⟩
    · rintro ⟨e, he, hd, hje⟩
      refine ⟨e, he, ?_⟩
      rw [hd, Option.map_some']
      cases j
      simp at hje
      rw [hje]
  · intro i hi
    rcases hcand : scene.candidates ray with _ | ⟨a, t⟩
    · rw [Scene.trace, hcand] at hi
      simp [minByDistance] at hi
    · rw [Scene.trace, hcand] at hi
      obtain ⟨c, pre, post, hfold, hdec, hmin, hpre⟩ := foldl_minAcc_spec t a
      have hic : c = i := by
        have : minByDistance (a :: t) = some c := by
          unfold minByDistance
          rw [List.foldl_cons]
          exact hfold
        rw [this] at hi
        exact Option.some.inj hi
      subst hic
      exact ⟨pre, post, hdec, hmin, hpre⟩

/-! A concrete tie for the C2 witness: two coincident planes hit at the same
distance 3, distinguished by colour; trace returns the first. -/

def tiePlane1 : Plane := ⟨⟨0, 0, -3⟩, ⟨0, 0, -1⟩, ⟨1, 0, 0⟩, 1⟩

def tiePlane2 : Plane := ⟨⟨0, 0, -3⟩, ⟨0, 0, -1⟩, ⟨0, 1, 0⟩, 1⟩

def tieScene : Scene := ⟨2, 1, 90, [.plane tiePlane1, .plane tiePlane2], [], 0⟩

def tieRay : Ray := ⟨Point.zero, ⟨0, 0, -1⟩⟩

theorem tie_plane1_intersect : tiePlane1.intersect tieRay = some 3 := by
  have hden : tiePlane1.denom tieRay = 1 := by
    norm_num [Plane.denom, Vector3.dot_prod, tiePlane1, tieRay]
  have hdist : tiePlane1.dist tieRay = 3 := by
    norm_num [Plane.dist, Plane.denom, Vector3.dot_prod, point_sub_def, tiePlane1,
      tieRay, Point.zero]
  rw [plane_intersect_hit tiePlane1 tieRay (by rw [hden]; norm_num)
    (by rw [hdist]; norm_num), hdist]

theorem tie_plane2_intersect : tiePlane2.intersect tieRay = some 3 := by
  have hden : tiePlane2.denom tieRay = 1 := by
    norm_num [Plane.denom, Vector3.dot_prod, tiePlane2, tieRay]
  have hdist : tiePlane2.dist tieRay = 3 := by
    norm_num [Plane.dist, Plane.denom, Vector3.dot_prod, point_sub_def, tiePlane2,
      tieRay, Point.zero]
  rw [plane_intersect_hit tiePlane2 tieRay (by rw [hden]; norm_num)
    (by rw [hdist]; norm_num), hdist]

theorem tie_trace : tieScene.trace tieRay = some ⟨3, .plane tiePlane1⟩ := by
  have hcand : tieScene.candidates tieRay =
      [⟨3, .plane tiePlane1⟩, ⟨3, .plane tiePlane2⟩] := by
    simp [Scene.candidates, tieScene, Element.intersect, tie_plane1_intersect,
      tie_plane2_intersect]
  unfold Scene.trace
  rw [hcand]
  norm_num [minByDistance, minAcc, minStep]

/-- Witness for C2 at the tie scene: both planes are hit at distance 3 and the
returned intersection is the first-encountered one, every candidate before it
(there are none) being strictly farther. -/
theorem C2_trace_nearest_witness :
    ∃ pre post, tieScene.candidates tieRay =
        pre ++ (Intersection.mk 3 (.plane tiePlane1)) :: post ∧
      (∀ j ∈ tieScene.candidates tieRay,
        (Intersection.mk 3 (.plane tiePlane1)).distance ≤ j.distance) ∧
      (∀ j ∈ pre, (Intersection.mk 3 (.plane tiePlane1)).distance < j.distance) :=
  (C2_trace_nearest tieScene tieRay).2.2 ⟨3, .plane tiePlane1⟩ tie_trace

/-! Claim C10: finiteness through Scene::trace and the min_by unwraps. -/

theorem IntersectionF_new_some (d : FVal) (e : Element) (i : IntersectionF)
    (h : IntersectionF.new d e = some i) : d.isFinite = true ∧ i = ⟨d, e⟩ := by
  unfold IntersectionF.new at h
  by_cases hf : d.isFinite = true
  · rw [if_pos hf] at h
    exact ⟨hf, (Option.some.inj h).symm⟩
  · rw [if_neg hf] at h
    exact absurd h (by simp)

theorem buildCandidates_finite :
    ∀ (rs : List (Option FVal × Element)) (cs : List IntersectionF),
      buildCandidates rs = some cs → ∀ i ∈ cs, i.distance.isFinite = true := by
  intro rs
  induction rs with
  | nil =>
    intro cs h i hi
    simp [buildCandidates] at h
    subst h
    simp at hi
  | cons hd t ih =>
    obtain ⟨od, e⟩ := hd
    cases od with
    | none =>
      intro cs h i hi
      exact ih cs h i hi
    | some d =>
      intro cs h i hi
      cases hnew : IntersectionF.new d e with
      | none => simp [buildCandidates, hnew] at h
      | some i0 =>
        simp only [buildCandidates, hnew] at h
        rw [Option.map_eq_some'] at h
        obtain ⟨cs', hbc, hcons⟩ := h
        subst hcons
        obtain ⟨hfin, hi0⟩ := IntersectionF_new_some d e i0 hnew
        rcases List.mem_cons.mp hi with rfl | hi
        · rw [hi0]
          exact hfin
        · exact ih cs' hbc i hi

theorem fval_fin_of_isFinite (v : FVal) (h : v.isFinite = true) : ∃ x, v = .fin x := by
  cases v with
  | fin x => exact ⟨x, rfl⟩
  | nan => exact absurd h (by simp [FVal.isFinite])
  | posInf => exact absurd h (by simp [FVal.isFinite])
  | negInf => exact absurd h (by simp [FVal.isFinite])

theorem minStepF_of_finite (a b : IntersectionF)
    (ha : a.distance.isFinite = true) (hb : b.distance.isFinite = true) :
    ∃ c, minStepF a b = some c ∧ (c = a ∨ c = b) := by
  obtain ⟨x, hx⟩ := fval_fin_of_isFinite a.distance ha
  obtain ⟨y, hy⟩ := fval_fin_of_isFinite b.distance hb
  unfold minStepF
  rw [hx, hy]
  simp only [FVal.pcmp, Option.map_some']
  exact ⟨_, rfl, by split_ifs <;> simp⟩

theorem minByF_go_ok (t : List IntersectionF) :
    ∀ a : IntersectionF, a.distance.isFinite = true →
      (∀ i ∈ t, i.distance.isFinite = true) →
      ∃ c, minByF.go a t = some (some c) ∧ c.distance.isFinite = true := by
  induction t with
  | nil =>
    intro a ha _
    exact ⟨a, rfl, ha⟩
  | cons b t ih =>
    intro a ha ht
    have hb : b.distance.isFinite = true := ht b (List.mem_cons_self b t)
    obtain ⟨c, hcs, hcab⟩ := minStepF_of_finite a b ha hb
    have hc : c.distance.isFinite = true := by
      rcases hcab with rfl | rfl
      · exact ha
      · exact hb
    obtain ⟨r, hr, hrf⟩ := ih c hc (fun i hi => ht i (List.mem_cons_of_mem b hi))
    refine ⟨r, ?_, hrf⟩
    show minByF.go a (b :: t) = some (some r)
    simp only [minByF.go, hcs]
    exact hr

/-- Claim C10: whenever the Intersection::new stage of Scene::trace does not
panic, every candidate distance is finite, the min_by selection completes
without any partial_cmp unwrap panic, and any returned intersection carries a
finite distance. -/
theorem C10_trace_finite (rs : List (Option FVal × Element)) (cs : List IntersectionF)
    (h : buildCandidates rs = some cs) :
    (∀ i ∈ cs, i.distance.isFinite = true) ∧
    ∃ r, traceF rs = some r ∧ ∀ i, r = some i → i.distance.isFinite = true := by
  have hfin := buildCandidates_finite rs cs h
  refine ⟨hfin, ?_⟩
  cases cs with
  | nil =>
    refine ⟨none, ?_, by intro i hi; simp at hi⟩
    unfold traceF
    rw [h]
    rfl
  | cons a t =>
    obtain ⟨c, hgo, hc⟩ := minByF_go_ok t a (hfin a (List.mem_cons_self a t))
      (fun i hi => hfin i (List.mem_cons_of_mem a hi))
    refine ⟨some c, ?_, ?_⟩
    · unfold traceF
      rw [h]
      show minByF (a :: t) = some (some c)
      simp only [minByF]
      exact hgo
    · intro i hi
      rw [← Option.some.inj hi]
      exact hc

def fvalElem : Element := .plane ⟨⟨0, 0, 0⟩, ⟨0, 0, 1⟩, ⟨1, 1, 1⟩, 1⟩

/-- Witness for C10 at a concrete candidate list with distances 2 and 1 and
one missing hit: the float-level trace completes without a panic and only
finite distances flow through. -/
theorem C10_trace_finite_witness :
    (∀ i ∈ ([⟨.fin 2, fvalElem⟩, ⟨.fin 1, fvalElem⟩] : List IntersectionF),
      i.distance.isFinite = true) ∧
    ∃ r, traceF [(some (.fin 2), fvalElem), (some (.fin 1), fvalElem),
        (none, fvalElem)] = some r ∧
      ∀ i, r = some i → i.distance.isFinite = true :=
  C10_trace_finite _ _ rfl

/-! Claims C5 and C8: non-negativity and monotonicity of the accumulated
colour in get_colour. -/

/-- All three channels non-negative. -/
def Colour.Nonneg (c : Colour) : Prop := 0 ≤ c.red ∧ 0 ≤ c.green ∧ 0 ≤ c.blue

/-- Non-negative surface colour and albedo. -/
def Element.Nonneg (e : Element) : Prop := e.colour.Nonneg ∧ 0 ≤ e.albedo

/-- Non-negative light colour and intensity parameter. -/
def Light.Nonneg : Light → Prop
  | .directional d => d.colour.Nonneg ∧ 0 ≤ d.intensity
  | .spherical s => s.colour.Nonneg ∧ 0 ≤ s.intensity

theorem vec_norm_nonneg (v : Vector3) : 0 ≤ v.norm :=
  add_nonneg (add_nonneg (mul_self_nonneg _) (mul_self_nonneg _)) (mul_self_nonneg _)

theorem light_colour_nonneg (l : Light) (h : l.Nonneg) : l.colour.Nonneg := by
  cases l with
  | directional d => exact h.1
  | spherical s => exact h.1

theorem light_intensity_nonneg (l : Light) (hp : Point) (h : l.Nonneg) :
    0 ≤ l.intensity hp := by
  cases l with
  | directional d => exact h.2
  | spherical s =>
    show 0 ≤ s.intensity / (4 * Real.pi * (s.position - hp).norm)
    exact div_nonneg h.2
      (mul_nonneg (mul_nonneg (by norm_num) Real.pi_pos.le) (vec_norm_nonneg _))

theorem mul4_nonneg (a b p r : ℝ) (ha : 0 ≤ a) (hb : 0 ≤ b) (hp : 0 ≤ p)
    (hr : 0 ≤ r) : 0 ≤ a * (b * p * r) :=
  mul_nonneg ha (mul_nonneg (mul_nonneg hb hp) hr)

theorem contribution_nonneg (scene : Scene) (ray : Ray) (i : Intersection)
    (light : Light) (he : i.elements.Nonneg) (hl : light.Nonneg) :
    (lightContribution scene ray i light).Nonneg := by
  have hc := light_colour_nonneg light hl
  have hrefl : 0 ≤ i.elements.albedo / Real.pi := div_nonneg he.2 Real.pi_pos.le
  have hpow : 0 ≤ max ((i.elements.surface_normal (hitPoint ray i)).dot_prod
      (light.direction_from (hitPoint ray i))) 0 *
      (if inLight scene (hitPoint ray i)
          (i.elements.surface_normal (hitPoint ray i)) light
        then light.intensity (hitPoint ray i) else 0) := by
    refine mul_nonneg (le_max_right _ _) ?_
    split_ifs with h
    · exact light_intensity_nonneg light _ hl
    · exact le_refl 0
  unfold Colour.Nonneg
  simp only [lightContribution, colour_mul_def, colour_smul_def]
  exact ⟨mul4_nonneg _ _ _ _ he.1.1 hc.1 hpow hrefl,
    mul4_nonneg _ _ _ _ he.1.2.1 hc.2.1 hpow hrefl,
    mul4_nonneg _ _ _ _ he.1.2.2 hc.2.2 hpow hrefl⟩

theorem shadeLights_nonneg_aux (scene : Scene) (ray : Ray) (i : Intersection)
    (he : i.elements.Nonneg) :
    ∀ (ls : List Light) (acc : Colour), (∀ l ∈ ls, l.Nonneg) → acc.Nonneg →
      (List.foldl (fun c light => c + lightContribution scene ray i light) acc ls).Nonneg := by
  intro ls
  induction ls with
  | nil =>
    intro acc _ ha
    exact ha
  | cons l ls ih =>
    intro acc hl ha
    rw [List.foldl_cons]
    refine ih (acc + lightContribution scene ray i l)
      (fun x hx => hl x (List.mem_cons_of_mem l hx)) ?_
    have hcn := contribution_nonneg scene ray i l he (hl l (List.mem_cons_self l ls))
    exact ⟨add_nonneg ha.1 hcn.1, add_nonneg ha.2.1 hcn.2.1, add_nonneg ha.2.2 hcn.2.2⟩

/-- Claim C5: with non-negative surface colour and albedo and non-negative
light colours and intensities, every channel get_colour returns lies in
the interval from 0 to 1; Colour::clamp caps each channel at 1 and never
raises a channel. -/
theorem C5_get_colour_bounds (scene : Scene) (ray : Ray) (i : Intersection)
    (he : i.elements.Nonneg) (hl : ∀ l ∈ scene.light, l.Nonneg) :
    (0 ≤ (getColour scene ray i).red ∧ (getColour scene ray i).red ≤ 1) ∧
    (0 ≤ (getColour scene ray i).green ∧ (getColour scene ray i).green ≤ 1) ∧
    (0 ≤ (getColour scene ray i).blue ∧ (getColour scene ray i).blue ≤ 1) ∧
    (∀ c : Colour, (c.clamp.red ≤ 1 ∧ c.clamp.green ≤ 1 ∧ c.clamp.blue ≤ 1) ∧
      (c.clamp.red ≤ c.red ∧ c.clamp.green ≤ c.green ∧ c.clamp.blue ≤ c.blue)) := by
  have hacc : (shadeLights scene ray i scene.light).Nonneg :=
    shadeLights_nonneg_aux scene ray i he scene.light ⟨0, 0, 0⟩ hl
      ⟨le_refl 0, le_refl 0, le_refl 0⟩
  refine ⟨⟨?_, ?_⟩, ⟨?_, ?_⟩, ⟨?_, ?_⟩, ?_⟩
  · exact le_min hacc.1 zero_le_one
  · exact min_le_right _ _
  · exact le_min hacc.2.1 zero_le_one
  · exact min_le_right _ _
  · exact le_min hacc.2.2 zero_le_one
  · exact min_le_right _ _
  · intro c
    exact ⟨⟨min_le_right _ _, min_le_right _ _, min_le_right _ _⟩,
      ⟨min_le_left _ _, min_le_left _ _, min_le_left _ _⟩⟩

def boxPlane : Plane := ⟨⟨0, 0, 0⟩, ⟨0, 0, 1⟩, ⟨1, 1, 1⟩, 1⟩

def noLightScene : Scene := ⟨2, 1, 90, [Element.plane boxPlane], [], 0⟩

def noLightRay : Ray := ⟨Point.zero, ⟨0, 0, 1⟩⟩

def noLightHit : Intersection := ⟨1, Element.plane boxPlane⟩

/-- Witness for C5 at a concrete lightless scene. -/
theorem C5_get_colour_bounds_witness :
    0 ≤ (getColour noLightScene noLightRay noLightHit).red ∧
    (getColour noLightScene noLightRay noLightHit).red ≤ 1 :=
  (C5_get_colour_bounds noLightScene noLightRay noLightHit
    (by norm_num [noLightHit, Element.Nonneg, Element.colour, Element.albedo,
      Colour.Nonneg, boxPlane])
    (by simp [noLightScene])).1

/-- Claim C8: each per-light contribution is channel-wise non-negative, so
processing one more light never decreases any channel of the accumulated
colour (before the final clamp). -/
theorem C8_accumulation_monotone (scene : Scene) (ray : Ray) (i : Intersection)
    (ls : List Light) (l : Light) (he : i.elements.Nonneg) (hl : l.Nonneg) :
    (lightContribution scene ray i l).Nonneg ∧
    (shadeLights scene ray i ls).red ≤ (shadeLights scene ray i (ls ++ [l])).red ∧
    (shadeLights scene ray i ls).green ≤ (shadeLights scene ray i (ls ++ [l])).green ∧
    (shadeLights scene ray i ls).blue ≤ (shadeLights scene ray i (ls ++ [l])).blue := by
  have hcn := contribution_nonneg scene ray i l he hl
  have happ : shadeLights scene ray i (ls ++ [l]) =
      shadeLights scene ray i ls + lightContribution scene ray i l := by
    unfold shadeLights
    rw [List.foldl_append]
    rfl
  refine ⟨hcn, ?_, ?_, ?_⟩ <;> rw [happ]
  · exact le_add_of_nonneg_right hcn.1
  · exact le_add_of_nonneg_right hcn.2.1
  · exact le_add_of_nonneg_right hcn.2.2

def dirLight : Light := .directional ⟨⟨0, 0, -1⟩, ⟨1, 1, 1⟩, 1⟩

/-- Witness for C8: appending one non-negative directional light to an empty
light list does not decrease the red channel. -/
theorem C8_accumulation_monotone_witness :
    (shadeLights noLightScene noLightRay noLightHit []).red ≤
      (shadeLights noLightScene noLightRay noLightHit ([] ++ [dirLight])).red :=
  (C8_accumulation_monotone noLightScene noLightRay noLightHit [] dirLight
    (by norm_num [noLightHit, Element.Nonneg, Element.colour, Element.albedo,
      Colour.Nonneg, boxPlane])
    (by norm_num [dirLight, Light.Nonneg, Colour.Nonneg])).2.1

end Raytrace
